import Mathlib

/-!
Verification of the sampling/ranking engine of the `system-monitor-tui`
repository, shallowly embedded in Lean 4.

Numeric model: Go `float64` quantities are embedded as rationals (`ℚ`);
every arithmetic step of the source is reproduced exactly, and the
floating-point tolerance the specification allows is subsumed by exact
rational equality.  Byte counts and pids are embedded as `ℕ`.

Sources:
  * `src/unnamed/part_000` — the Bubble Tea model: `model`, `model.Update`
    (the `TickMsg` branch), `model.viewHeader`, `progressBar`.
  * `src/main.go` — the two frontend mains (TUI and headless printer).
The Delta Engine and the Ranker (`GetProcesses` and its helpers) are called
from the files above but their bodies are not part of the provided sources;
they are modelled from the specification (§4.2, §4.3) where needed, each
such definition marked `Modelled from the spec:` in its doc comment.
-/

/-- Host-wide cumulative CPU state percentages, the fields of
`gopsutil cpu.TimesStat` that `model` reads (`User`, `System`, `Idle`,
`Nice`, `Iowait`, `Irq`, `Softirq`, `Steal`, `Guest`). -/
structure TimesStat where
  user : ℚ
  system : ℚ
  idle : ℚ
  nice : ℚ
  iowait : ℚ
  irq : ℚ
  softirq : ℚ
  steal : ℚ
  guest : ℚ
  deriving DecidableEq, Repr

/-- Host-wide memory counters, the fields of `gopsutil mem.VirtualMemoryStat`
that `model` reads. -/
structure VirtualMemoryStat where
  total : ℕ
  used : ℕ
  available : ℕ
  active : ℕ
  buffers : ℕ
  cached : ℕ
  usedPercent : ℚ
  deriving DecidableEq, Repr

/-- One entry of the slice returned by `GetProcesses`, with the fields
`model.Update` reads: `p.PID`, `p.Name`, `p.CPUPercent`, `p.Memory`,
`p.Username`, `p.RunningTime`. -/
structure ProcessInfo where
  pid : ℕ
  name : String
  username : String
  cpuPercent : ℚ
  memory : ℕ
  runningTime : String
  deriving DecidableEq, Repr

/-- The fields of the Bubble Tea `model` that the `TickMsg` branch of
`model.Update` writes: `lastUpdate`, `CpuUsage`, `MemUsage`, and the data
rows handed to `processTable.SetRows` (string formatting of a row is
presentation, outside this embedding; the row data is the `ProcessInfo`
it is printed from). -/
structure Model where
  lastUpdate : ℚ
  cpuUsage : TimesStat
  memUsage : VirtualMemoryStat
  processRows : List ProcessInfo
  deriving DecidableEq, Repr

/-- The `TickMsg` branch of `model.Update` (src/unnamed/part_000): each of the
three provider reads is `Except`; on error the field keeps its previous value
(the Go code logs via `slog.Error` and skips the assignment), on success the
field is overwritten.  `t` is the tick timestamp stored into `lastUpdate`. -/
def updateTick (t : ℚ) (m : Model) (cpuRes : Except String TimesStat)
    (memRes : Except String VirtualMemoryStat)
    (procRes : Except String (List ProcessInfo)) : Model :=
  { lastUpdate := t
    cpuUsage := match cpuRes with
      | .error _ => m.cpuUsage
      | .ok c => c
    memUsage := match memRes with
      | .error _ => m.memUsage
      | .ok v => v
    processRows := match procRes with
      | .error _ => m.processRows
      | .ok ps => ps }

/-- The host-wide used-CPU figure of `model.viewHeader`
(src/unnamed/part_000): `100 - m.CpuUsage.Idle`, a direct pass-through of the
raw idle counter with no division. -/
def headerCpuUsedPercent (c : TimesStat) : ℚ :=
  100 - c.idle

/-- Go `int(x)` on a floating value: truncation toward zero (`⌈q⌉` for
negative `q`, `⌊q⌋` otherwise). -/
def truncQ (q : ℚ) : ℤ :=
  if q < 0 then ⌈q⌉ else ⌊q⌋

/-- Go `strings.Repeat s n`: panics (here `none`) when `n < 0`. -/
def stringsRepeat (s : String) (n : ℤ) : Option String :=
  if n < 0 then none else some (String.join (List.replicate n.toNat s))

/-- `progressBar` (src/unnamed/part_000): 20 segments total,
`fillBars = int(percentage / 100 * totalBars)` filled, the rest empty,
wrapped in brackets.  Color styling is dropped (presentation); the two
`strings.Repeat` calls are kept, so `none` models a panic. -/
def progressBar (percentage : ℚ) : Option String :=
  let totalBars : ℤ := 20
  let fillBars : ℤ := truncQ (percentage / 100 * (totalBars : ℚ))
  (stringsRepeat "|" fillBars).bind fun filled =>
    (stringsRepeat "|" (totalBars - fillBars)).map fun empty =>
      "[" ++ filled ++ empty ++ "]"

/-- Number of bar segments in a rendered string. -/
def barCount (s : String) : ℕ :=
  s.data.count '|'

example : progressBar 50 = some "[||||||||||||||||||||]" := by
  have h : truncQ ((50 : ℚ) / 100 * (((20 : ℤ) : ℚ))) = 10 := by
    norm_num [truncQ]
  simp only [progressBar, h, stringsRepeat]
  decide
example : progressBar (-1) = some "[||||||||||||||||||||]" := by
  have h : truncQ ((-1 : ℚ) / 100 * (((20 : ℤ) : ℚ))) = 0 := by
    norm_num [truncQ]
  simp only [progressBar, h, stringsRepeat]
  decide
example : progressBar (-5) = none := by
  have h : truncQ ((-5 : ℚ) / 100 * (((20 : ℤ) : ℚ))) = -1 := by
    have hq : ((-5 : ℚ) / 100 * (((20 : ℤ) : ℚ))) = ((-1 : ℤ) : ℚ) := by norm_num
    rw [truncQ, hq]
    simp only [Int.ceil_intCast, Int.floor_intCast]
    norm_num
  simp only [progressBar, h, stringsRepeat]
  decide
example : progressBar 105 = none := by
  have h : truncQ ((105 : ℚ) / 100 * (((20 : ℤ) : ℚ))) = 21 := by
    norm_num [truncQ]
  simp only [progressBar, h, stringsRepeat]
  decide
example : barCount "[||||||||||||||||||||]" = 20 := by decide

/-- Modelled from the spec: the `RawProcessRecord` of §3 — the body of the
stats provider that produces it (`GetProcesses` and its helpers) is not part
of the provided sources, only its callers are.  Fields: pid, name,
owning-user, cumulative CPU time consumed since process start (seconds),
process start time, resident memory. -/
structure RawProcessRecord where
  pid : ℕ
  name : String
  username : String
  cpuTime : ℚ
  startTime : ℚ
  memory : ℕ
  deriving DecidableEq, Repr

/-- Modelled from the spec: one entry of the Delta Engine's prior-sample
table of §3 — "mapping from pid to its last-seen RawProcessRecord and
observation timestamp".  Only the cumulative CPU time of the last-seen
record matters to the delta computation. -/
structure PriorObs where
  cpuTime : ℚ
  time : ℚ
  deriving DecidableEq, Repr

/-- Modelled from the spec: the derived `ProcessUsage` of §3 — {pid, name,
username, cpuPercent, memoryBytes, runningTime (elapsed wall time since
start)}. -/
structure ProcessUsage where
  pid : ℕ
  name : String
  username : String
  cpuPercent : ℚ
  memoryBytes : ℕ
  runningTime : ℚ
  deriving DecidableEq, Repr

/-- Lookup of a pid in the prior-sample table (first matching entry). -/
def lookupPrior (table : List (ℕ × PriorObs)) (pid : ℕ) : Option PriorObs :=
  (table.find? fun e => e.1 == pid).map Prod.snd

/-- Modelled from the spec: §4.2 — the percentage the Delta Engine emits for
one current record.  First sighting emits 0; otherwise
`100 * ΔT / ΔW` with `ΔT` the cumulative-CPU-time increase and `ΔW` the
elapsed wall time, except that `ΔW ≤ 0` (clock anomaly, §4.4 edge case)
emits 0 instead of dividing. -/
def cpuPercentOf (table : List (ℕ × PriorObs)) (now : ℚ)
    (r : RawProcessRecord) : ℚ :=
  match lookupPrior table r.pid with
  | none => 0
  | some o =>
    let dW := now - o.time
    if dW ≤ 0 then 0 else 100 * (r.cpuTime - o.cpuTime) / dW

/-- Modelled from the spec: the `ProcessUsage` emitted for one current
record (§4.2, §3). -/
def usageOf (table : List (ℕ × PriorObs)) (now : ℚ)
    (r : RawProcessRecord) : ProcessUsage :=
  { pid := r.pid
    name := r.name
    username := r.username
    cpuPercent := cpuPercentOf table now r
    memoryBytes := r.memory
    runningTime := now - r.startTime }

/-- Modelled from the spec: one full Delta Engine pass (§4.2) — input the
prior-sample table, the wall-clock timestamp of this sample and the full
current raw record list; output the emitted usages and the new prior-sample
table, which is "replaced entirely with the current observations". -/
def deltaStep (table : List (ℕ × PriorObs)) (now : ℚ)
    (records : List RawProcessRecord) :
    List ProcessUsage × List (ℕ × PriorObs) :=
  (records.map (usageOf table now),
   records.map fun r => (r.pid, { cpuTime := r.cpuTime, time := now }))

/-- Modelled from the spec: the Ranker's order (§4.3) — descending
cpuPercent, ties broken by ascending pid. -/
def rankRel (a b : ProcessUsage) : Prop :=
  b.cpuPercent < a.cpuPercent ∨ (a.cpuPercent = b.cpuPercent ∧ a.pid ≤ b.pid)

instance : DecidableRel rankRel := fun _ _ =>
  inferInstanceAs (Decidable (_ ∨ _ ∧ _))

instance : IsTotal ProcessUsage rankRel where
  total a b := by
    rcases lt_trichotomy a.cpuPercent b.cpuPercent with h | h | h
    · exact Or.inr (Or.inl h)
    · rcases Nat.le_total a.pid b.pid with hp | hp
      · exact Or.inl (Or.inr ⟨h, hp⟩)
      · exact Or.inr (Or.inr ⟨h.symm, hp⟩)
    · exact Or.inl (Or.inl h)

instance : IsTrans ProcessUsage rankRel where
  trans a b c hab hbc := by
    rcases hab with hab | ⟨hab, hab'⟩ <;> rcases hbc with hbc | ⟨hbc, hbc'⟩
    · exact Or.inl (hbc.trans hab)
    · exact Or.inl (hbc ▸ hab)
    · exact Or.inl (hab ▸ hbc)
    · exact Or.inr ⟨hab.trans hbc, hab'.trans hbc'⟩

/-- Modelled from the spec: `Rank(usages, N)` (§4.3) — "the first N entries
of `usages` sorted by descending cpuPercent; ties broken by ascending pid". -/
def Rank (usages : List ProcessUsage) (n : ℕ) : List ProcessUsage :=
  (usages.insertionSort rankRel).take n

lemma truncQ_of_nonneg {q : ℚ} (h : 0 ≤ q) : truncQ q = ⌊q⌋ :=
  if_neg (not_lt.mpr h)

lemma truncQ_of_neg {q : ℚ} (h : q < 0) : truncQ q = ⌈q⌉ :=
  if_pos h

lemma data_join_replicate_bar (m : ℕ) :
    (String.join (List.replicate m "|")).data = List.replicate m '|' := by
  rw [String.join_eq]
  simp

lemma twenty_cast (p : ℚ) : p / 100 * (((20 : ℤ) : ℚ)) = p / 5 := by
  push_cast
  ring

/-- The Delta Engine's percentage for a record with a prior observation and
positive elapsed wall time is the unclamped rate. -/
lemma cpuPercentOf_of_prior {table : List (ℕ × PriorObs)} {now : ℚ}
    {r : RawProcessRecord} {o : PriorObs}
    (hlook : lookupPrior table r.pid = some o) (hW : o.time < now) :
    cpuPercentOf table now r = 100 * (r.cpuTime - o.cpuTime) / (now - o.time) := by
  rw [cpuPercentOf, hlook]
  have : ¬ (now - o.time ≤ 0) := not_le.mpr (sub_pos.mpr hW)
  simp [this]

/-- C1: for a pid seen in two consecutive passes whose cumulative CPU time
rose by ΔT over elapsed wall time ΔW > 0, the Delta Engine emits
cpuPercent = 100 × ΔT / ΔW, and the emitted usage record carries exactly
that value — no clamping is applied even when it exceeds 100. -/
theorem delta_second_sighting_rate (table : List (ℕ × PriorObs)) (now : ℚ)
    (records : List RawProcessRecord) (r : RawProcessRecord) (o : PriorObs)
    (hmem : r ∈ records) (hlook : lookupPrior table r.pid = some o)
    (hW : o.time < now) :
    cpuPercentOf table now r = 100 * (r.cpuTime - o.cpuTime) / (now - o.time) ∧
    usageOf table now r ∈ (deltaStep table now records).1 ∧
    (usageOf table now r).cpuPercent
      = 100 * (r.cpuTime - o.cpuTime) / (now - o.time) := by
  have h := cpuPercentOf_of_prior hlook hW
  refine ⟨h, ?_, h⟩
  exact List.mem_map_of_mem (usageOf table now) hmem

/-- C1 witness: pid 1, prior cumulative CPU 10 at time 0, current 14 at
time 2 — the emitted percentage is 100 × 4 / 2 = 200, which exceeds 100
and is not clamped. -/
theorem delta_second_sighting_rate_witness :
    cpuPercentOf [(1, ⟨10, 0⟩)] 2 ⟨1, "worker", "root", 14, 0, 4096⟩ = 200 ∧
    (100 : ℚ) < 200 := by
  have h := (delta_second_sighting_rate [(1, ⟨10, 0⟩)] 2
    [⟨1, "worker", "root", 14, 0, 4096⟩] ⟨1, "worker", "root", 14, 0, 4096⟩
    ⟨10, 0⟩ (List.mem_singleton.mpr rfl)
    (by simp [lookupPrior]) (by norm_num)).1
  rw [h]
  norm_num

/-- C2: a pid with no prior observation is emitted with cpuPercent = 0
regardless of its cumulative CPU time, and its current observation is
recorded in the table produced for the next pass. -/
theorem delta_first_sighting_zero (table : List (ℕ × PriorObs)) (now : ℚ)
    (records : List RawProcessRecord) (r : RawProcessRecord)
    (hmem : r ∈ records) (hlook : lookupPrior table r.pid = none) :
    cpuPercentOf table now r = 0 ∧
    usageOf table now r ∈ (deltaStep table now records).1 ∧
    (usageOf table now r).cpuPercent = 0 ∧
    (r.pid, (⟨r.cpuTime, now⟩ : PriorObs)) ∈ (deltaStep table now records).2 := by
  have h : cpuPercentOf table now r = 0 := by
    rw [cpuPercentOf, hlook]
  refine ⟨h, List.mem_map_of_mem (usageOf table now) hmem, h, ?_⟩
  have := List.mem_map_of_mem
    (fun r : RawProcessRecord => (r.pid, (⟨r.cpuTime, now⟩ : PriorObs))) hmem
  exact this

/-- C2 witness: pid 7 first seen with a large cumulative CPU time of 500
seconds still reports 0%, and the observation lands in the new table. -/
theorem delta_first_sighting_zero_witness :
    cpuPercentOf [] 3 ⟨7, "init", "root", 500, 0, 1024⟩ = 0 ∧
    ((7 : ℕ), (⟨500, 3⟩ : PriorObs)) ∈
      (deltaStep [] 3 [⟨7, "init", "root", 500, 0, 1024⟩]).2 := by
  have h := delta_first_sighting_zero [] 3 [⟨7, "init", "root", 500, 0, 1024⟩]
    ⟨7, "init", "root", 500, 0, 1024⟩ (List.mem_singleton.mpr rfl)
    (by simp [lookupPrior])
  exact ⟨h.1, h.2.2.2⟩

/-- C3: when the elapsed wall time between the two observations of a pid is
zero or negative, the Delta Engine emits cpuPercent = 0 — the division is
guarded, so no divide-by-zero happens and the emitted value is not
negative. -/
theorem delta_clock_anomaly_zero (table : List (ℕ × PriorObs)) (now : ℚ)
    (r : RawProcessRecord) (o : PriorObs)
    (hlook : lookupPrior table r.pid = some o) (hW : now - o.time ≤ 0) :
    cpuPercentOf table now r = 0 ∧ 0 ≤ cpuPercentOf table now r := by
  have h : cpuPercentOf table now r = 0 := by
    rw [cpuPercentOf, hlook]
    simp [hW]
  exact ⟨h, h.ge⟩

/-- C3 witness: pid 3 sampled twice at the same instant (ΔW = 0) with its
cumulative CPU time increased — the emitted percentage is 0, not a division
by zero. -/
theorem delta_clock_anomaly_zero_witness :
    cpuPercentOf [(3, ⟨10, 5⟩)] 5 ⟨3, "svc", "root", 12, 0, 0⟩ = 0 := by
  exact (delta_clock_anomaly_zero [(3, ⟨10, 5⟩)] 5 ⟨3, "svc", "root", 12, 0, 0⟩
    ⟨10, 5⟩ (by simp [lookupPrior]) (by norm_num)).1

/-- C9: after every Delta Engine pass the new prior-sample table's keys are
exactly the pids of the newest raw process list, in order — every pid absent
from the newest list is evicted and the table's size equals the size of the
most recent raw list, so it never grows unboundedly. -/
theorem prior_table_pruned (table : List (ℕ × PriorObs)) (now : ℚ)
    (records : List RawProcessRecord) :
    ((deltaStep table now records).2).map Prod.fst
      = records.map RawProcessRecord.pid ∧
    ((deltaStep table now records).2).length = records.length := by
  constructor
  · simp [deltaStep]
  · simp [deltaStep]

/-- C4: `Rank` returns the first N entries of the input sorted by descending
cpuPercent with ties broken by ascending pid: the result's length is
`min N M`, hence ≤ N, the result is sorted by the ranking order, and when
N ≥ M it is exactly the M input entries (a permutation of the input). -/
theorem rank_spec (u : List ProcessUsage) (n : ℕ) :
    (Rank u n).length = min n u.length ∧
    (Rank u n).length ≤ n ∧
    List.Sorted rankRel (Rank u n) ∧
    (u.length ≤ n → (Rank u n).Perm u) := by
  have hperm := List.perm_insertionSort rankRel u
  have hlen : (u.insertionSort rankRel).length = u.length := hperm.length_eq
  refine ⟨?_, ?_, ?_, ?_⟩
  · rw [Rank, List.length_take, hlen]
  · rw [Rank, List.length_take]
    exact min_le_left _ _
  · exact List.Pairwise.sublist (List.take_sublist n _)
      (List.sorted_insertionSort rankRel u)
  · intro hle
    rw [Rank, List.take_of_length_le (by rw [hlen]; exact hle)]
    exact hperm

/-- C4 witness: three processes, two tied at 50%, requested bound 5 ≥ 3 —
`Rank` returns all 3 entries (a permutation of the input) and its length
is 3. -/
theorem rank_spec_witness :
    (Rank [⟨2, "a", "u", 50, 0, 0⟩, ⟨3, "c", "u", 10, 0, 0⟩,
           ⟨1, "b", "u", 50, 0, 0⟩] 5).length = 3 ∧
    (Rank [⟨2, "a", "u", 50, 0, 0⟩, ⟨3, "c", "u", 10, 0, 0⟩,
           ⟨1, "b", "u", 50, 0, 0⟩] 5).Perm
      [⟨2, "a", "u", 50, 0, 0⟩, ⟨3, "c", "u", 10, 0, 0⟩,
       ⟨1, "b", "u", 50, 0, 0⟩] := by
  constructor
  · rw [(rank_spec [⟨2, "a", "u", 50, 0, 0⟩, ⟨3, "c", "u", 10, 0, 0⟩,
        ⟨1, "b", "u", 50, 0, 0⟩] 5).1]
    simp
  · exact (rank_spec [⟨2, "a", "u", 50, 0, 0⟩, ⟨3, "c", "u", 10, 0, 0⟩,
      ⟨1, "b", "u", 50, 0, 0⟩] 5).2.2.2 (by simp)

/-- C5 (amended): when exactly one of the three provider reads fails during
a tick, the pass still completes: the failing family keeps its last-known
value from the model, the other two families are updated from this pass,
and the timestamp advances.  (No staleness flag exists in the model.) -/
theorem tick_family_retention (t : ℚ) (m : Model) (e : String)
    (c : TimesStat) (v : VirtualMemoryStat) (ps : List ProcessInfo) :
    updateTick t m (.error e) (.ok v) (.ok ps)
      = ⟨t, m.cpuUsage, v, ps⟩ ∧
    updateTick t m (.ok c) (.error e) (.ok ps)
      = ⟨t, c, m.memUsage, ps⟩ ∧
    updateTick t m (.ok c) (.ok v) (.error e)
      = ⟨t, c, v, m.processRows⟩ :=
  ⟨rfl, rfl, rfl⟩

/-- C5 counterexample: a tick in which the CPU read fails produces a model
state identical to a tick in which the CPU read succeeded returning the
prior value — so no per-family staleness flag is surfaced anywhere in the
published state; stale and fresh are indistinguishable. -/
theorem tick_no_staleness_flag :
    updateTick 1 ⟨0, ⟨1, 2, 70, 0, 0, 0, 0, 0, 0⟩, ⟨8, 4, 4, 2, 1, 1, 50⟩, []⟩
        (.error "cpu read failed") (.ok ⟨8, 4, 4, 2, 1, 1, 50⟩) (.ok [])
      = updateTick 1 ⟨0, ⟨1, 2, 70, 0, 0, 0, 0, 0, 0⟩, ⟨8, 4, 4, 2, 1, 1, 50⟩, []⟩
        (.ok ⟨1, 2, 70, 0, 0, 0, 0, 0, 0⟩) (.ok ⟨8, 4, 4, 2, 1, 1, 50⟩)
        (.ok []) :=
  rfl

/-- C6: the header's host-wide CPU usage is 100 minus the raw idle counter:
any raw CPU counters with idle = 70 display 30% used. -/
theorem header_idle_passthrough (c : TimesStat) (h : c.idle = 70) :
    headerCpuUsedPercent c = 30 := by
  rw [headerCpuUsedPercent, h]
  norm_num

/-- C6 witness: concrete raw counters with idle = 70 display 30% used. -/
theorem header_idle_passthrough_witness :
    headerCpuUsedPercent ⟨0, 0, 70, 0, 0, 0, 0, 0, 0⟩ = 30 :=
  header_idle_passthrough ⟨0, 0, 70, 0, 0, 0, 0, 0, 0⟩ rfl

lemma barCount_join_replicate (m : ℕ) :
    barCount (String.join (List.replicate m "|")) = m := by
  rw [barCount, data_join_replicate_bar]
  simp

lemma barCount_brackets (x y : String) :
    barCount ("[" ++ x ++ y ++ "]") = barCount x + barCount y := by
  have h1 : ("[" : String).data = ['['] := rfl
  have h2 : ("]" : String).data = [']'] := rfl
  simp [barCount, String.data_append, h1, h2, List.count_append,
    List.count_cons, List.count_nil]

lemma progressBar_of_trunc {p : ℚ} {k : ℤ}
    (hk : truncQ (p / 100 * (((20 : ℤ) : ℚ))) = k) (h0 : 0 ≤ k)
    (h20 : k ≤ 20) :
    progressBar p = some ("[" ++ String.join (List.replicate k.toNat "|")
      ++ String.join (List.replicate (20 - k).toNat "|") ++ "]") := by
  have hs1 : stringsRepeat "|" k
      = some (String.join (List.replicate k.toNat "|")) := by
    rw [stringsRepeat, if_neg (not_lt.mpr h0)]
  have hs2 : stringsRepeat "|" (20 - k)
      = some (String.join (List.replicate (20 - k).toNat "|")) := by
    rw [stringsRepeat, if_neg (not_lt.mpr (by omega : (0 : ℤ) ≤ 20 - k))]
  push_cast at hk
  simp [progressBar, hk, hs1, hs2]

lemma progressBar_none_of_neg {p : ℚ} {k : ℤ}
    (hk : truncQ (p / 100 * (((20 : ℤ) : ℚ))) = k) (h : k < 0) :
    progressBar p = none := by
  have hs1 : stringsRepeat "|" k = none := by
    rw [stringsRepeat, if_pos h]
  push_cast at hk
  simp [progressBar, hk, hs1]

lemma progressBar_none_of_big {p : ℚ} {k : ℤ}
    (hk : truncQ (p / 100 * (((20 : ℤ) : ℚ))) = k) (h0 : 0 ≤ k)
    (h : 20 < k) :
    progressBar p = none := by
  have hs1 : stringsRepeat "|" k
      = some (String.join (List.replicate k.toNat "|")) := by
    rw [stringsRepeat, if_neg (not_lt.mpr h0)]
  have hs2 : stringsRepeat "|" (20 - k) = none := by
    rw [stringsRepeat, if_pos (by omega : (20 : ℤ) - k < 0)]
  push_cast at hk
  simp [progressBar, hk, hs1, hs2]

/-- C10 counterexample: −1 is below 0, yet `progressBar (-1)` does not
panic — Go truncation toward zero sends (−1)/100×20 = −0.2 to 0, so both
repeat counts are non-negative and a full bar of 20 empty segments is
rendered. -/
theorem progressBar_neg_one_no_panic :
    progressBar (-1) = some "[||||||||||||||||||||]" := by
  have h : truncQ ((-1 : ℚ) / 100 * (((20 : ℤ) : ℚ))) = 0 := by
    norm_num [truncQ]
  simp only [progressBar, h, stringsRepeat]
  decide

/-- C10 (amended): for 0 ≤ p ≤ 100 `progressBar` returns a bar of exactly
20 segments enclosed in brackets and does not panic; for p ≤ −5 or p ≥ 105
a repeat count passed to `strings.Repeat` is negative and `progressBar`
panics, so it is not total.  (Inputs in (−5, 0) and (100, 105) also render
without panicking, because Go truncation is toward zero.) -/
theorem progressBar_range_total (p : ℚ) :
    (0 ≤ p → p ≤ 100 → ∃ s, progressBar p = some s ∧ barCount s = 20) ∧
    ((p ≤ -5 ∨ 105 ≤ p) → progressBar p = none) := by
  constructor
  · intro h0 h100
    have hq : (0 : ℚ) ≤ p / 5 := by positivity
    have hk : truncQ (p / 100 * (((20 : ℤ) : ℚ))) = ⌊p / 5⌋ := by
      rw [twenty_cast, truncQ_of_nonneg hq]
    have hk0 : 0 ≤ ⌊p / 5⌋ := Int.floor_nonneg.mpr hq
    have hk20 : ⌊p / 5⌋ ≤ 20 := by
      have h1 : ((⌊p / 5⌋ : ℤ) : ℚ) ≤ p / 5 := Int.floor_le _
      have h2 : p / 5 ≤ 20 := by linarith
      exact_mod_cast h1.trans h2
    refine ⟨_, progressBar_of_trunc hk hk0 hk20, ?_⟩
    rw [barCount_brackets, barCount_join_replicate, barCount_join_replicate]
    omega
  · intro h
    rcases h with h | h
    · have hq : p / 5 < 0 := by linarith
      have hk : truncQ (p / 100 * (((20 : ℤ) : ℚ))) = ⌈p / 5⌉ := by
        rw [twenty_cast, truncQ_of_neg hq]
      have hneg : ⌈p / 5⌉ ≤ -1 := Int.ceil_le.mpr (by push_cast; linarith)
      exact progressBar_none_of_neg hk (by omega)
    · have hq : (0 : ℚ) ≤ p / 5 := by linarith
      have hk : truncQ (p / 100 * (((20 : ℤ) : ℚ))) = ⌊p / 5⌋ := by
        rw [twenty_cast, truncQ_of_nonneg hq]
      have hbig : (21 : ℤ) ≤ ⌊p / 5⌋ := Int.le_floor.mpr (by push_cast; linarith)
      exact progressBar_none_of_big hk (by omega) (by omega)

/-- C10 witness: at p = 50 the bar renders with 20 segments; at p = 105 the
second repeat count is negative and `progressBar` panics. -/
theorem progressBar_range_total_witness :
    (∃ s, progressBar 50 = some s ∧ barCount s = 20) ∧
    progressBar 105 = none :=
  ⟨(progressBar_range_total 50).1 (by norm_num) (by norm_num),
   (progressBar_range_total 105).2 (Or.inr (by norm_num))⟩
